import Mathlib

/-!
Verification development for the RSI options trading strategy repository.

The definitions below are a shallow embedding of the Python sources:
* `backtest_engine.py` — `RSICalculator.calculate_rsi`, `PositionPart`,
  `Trade`, `BacktestEngine._get_contract_candle`,
  `BacktestEngine._check_staggered_entry`, `BacktestEngine._check_exit`,
  `BacktestEngine._eod_close_trade`, and the per-minute/per-day replay loop
  of `BacktestEngine.run_backtest`.
* `rsi_options_strategy.py` — `RSIOptionsStrategy.calculate_rsi` and
  `RSIOptionsStrategy.generate_signal`.

Prices and percentages are modelled as rationals (`ℚ`); the Python floats
carry exact decimal values in all the claims under scrutiny.  Pandas `NaN`
cells are modelled as `Option.none`.  Timestamps are abstracted to natural
numbers (minutes); `time_only` is a minute-of-day number.
-/

/-- Trade lifecycle states: the string constants `'WAITING_ENTRY'`,
`'PARTIAL_POSITION'`, `'FULL_POSITION'`, `'CLOSED'` of `backtest_engine.py`. -/
inductive TStatus where
  | WAITING_ENTRY
  | PARTIAL_POSITION
  | FULL_POSITION
  | CLOSED
deriving DecidableEq, Repr

/-- Exit reason strings `'STOP_LOSS'`, `'TARGET'`, `'EOD'`. -/
inductive ExitReason where
  | STOP_LOSS
  | TARGET
  | EOD
deriving DecidableEq, Repr

/-- Strategy/engine configuration (from `config.py` and the engine's
`__init__`): stop-loss and target percentages, the three staggered entry
offsets, and the trading window (minutes of day). -/
structure Config where
  stop_loss_pct : ℚ
  target_pct : ℚ
  entry_level_1_pct : ℚ
  entry_level_2_pct : ℚ
  entry_level_3_pct : ℚ
  entry_time : ℕ
  exit_time : ℕ
deriving DecidableEq, Repr

/-- The default configuration values of `config.py`:
SL 20, TP 10, entry offsets 5/10/15, hours 09:18–15:15 (558–915 minutes). -/
def defaultConfig : Config :=
  { stop_loss_pct := 20
    target_pct := 10
    entry_level_1_pct := 5
    entry_level_2_pct := 10
    entry_level_3_pct := 15
    entry_time := 558
    exit_time := 915 }

/-- A contract key: the four columns `strike`, `option_type`, `expiry_type`,
`expiry_code` which `_get_contract_candle` matches on. -/
structure ContractKey where
  strike : ℚ
  option_type : String
  expiry_type : String
  expiry_code : ℕ
deriving DecidableEq, Repr

/-- One data row (one minute of one option contract) with the fields the
engine reads: the contract key, `moneyness`, `time_only`, OHLC subset used
(`high`, `low`, `close`) and the RSI annotations (`none` models pandas NaN). -/
structure Row where
  key : ContractKey
  moneyness : String
  time_only : ℕ
  high : ℚ
  low : ℚ
  close : ℚ
  rsi : Option ℚ
  rsi_prev : Option ℚ
deriving DecidableEq, Repr

/-- Model of `PositionPart`: one part of a staggered position (`backtest_engine.py`). -/
structure PositionPart where
  part_num : ℕ
  entry_time : ℕ
  entry_price : ℚ
  size_pct : ℚ
deriving DecidableEq, Repr

/-- The `Trade` object of `backtest_engine.py`: signal info, the three entry
levels computed at construction, parts tracking, exit info and P&L. -/
structure Trade where
  signal_time : ℕ
  base_price : ℚ
  option_type : String
  strike : ℚ
  expiry_type : String
  expiry_code : ℕ
  instrument : String
  entry_level_1 : ℚ
  entry_level_2 : ℚ
  entry_level_3 : ℚ
  parts : List PositionPart
  part1_filled : Bool
  part2_filled : Bool
  part3_filled : Bool
  exit_time : Option ℕ
  exit_price : Option ℚ
  exit_reason : Option ExitReason
  status : TStatus
  total_pnl : ℚ
  total_pnl_pct : ℚ
deriving DecidableEq, Repr

/-- Model of `Trade.__init__`: entry levels are `base_price * (1 + offset/100)` for the
three configured offsets; the trade starts `WAITING_ENTRY` with no parts. -/
def mkTrade (cfg : Config) (signal_time : ℕ) (base_price : ℚ)
    (option_type : String) (strike : ℚ) (expiry_type : String)
    (expiry_code : ℕ) (instrument : String) : Trade :=
  { signal_time := signal_time
    base_price := base_price
    option_type := option_type
    strike := strike
    expiry_type := expiry_type
    expiry_code := expiry_code
    instrument := instrument
    entry_level_1 := base_price * (1 + cfg.entry_level_1_pct / 100)
    entry_level_2 := base_price * (1 + cfg.entry_level_2_pct / 100)
    entry_level_3 := base_price * (1 + cfg.entry_level_3_pct / 100)
    parts := []
    part1_filled := false
    part2_filled := false
    part3_filled := false
    exit_time := none
    exit_price := none
    exit_reason := none
    status := TStatus.WAITING_ENTRY
    total_pnl := 0
    total_pnl_pct := 0 }

/-- The contract key a `Trade` observes (the four fields `_get_contract_candle`
and the EOD searches match against). -/
def Trade.contract (tr : Trade) : ContractKey :=
  { strike := tr.strike
    option_type := tr.option_type
    expiry_type := tr.expiry_type
    expiry_code := tr.expiry_code }

/-- Model of `Trade.add_entry`: append one `PositionPart`, set the matching
`partN_filled` flag, and update `status` to `FULL_POSITION` when three parts
are filled, else `PARTIAL_POSITION`. -/
def Trade.add_entry (tr : Trade) (part_num : ℕ) (entry_time : ℕ)
    (entry_price : ℚ) (size_pct : ℚ) : Trade :=
  let parts := tr.parts ++ [⟨part_num, entry_time, entry_price, size_pct⟩]
  { tr with
    parts := parts
    part1_filled := if part_num = 1 then true else tr.part1_filled
    part2_filled := if part_num = 2 then true else tr.part2_filled
    part3_filled := if part_num = 3 then true else tr.part3_filled
    status := if parts.length = 3 then TStatus.FULL_POSITION
              else TStatus.PARTIAL_POSITION }

/-- Model of `Trade.get_avg_entry_price`: weighted average entry price across filled
parts; `None` when no parts, or when the total weight is not positive. -/
def Trade.get_avg_entry_price (tr : Trade) : Option ℚ :=
  if tr.parts = [] then none
  else
    let total_weighted := (tr.parts.map (fun p => p.entry_price * p.size_pct)).sum
    let total_weight := (tr.parts.map (fun p => p.size_pct)).sum
    if 0 < total_weight then some (total_weighted / total_weight) else none

/-- Model of `Trade.has_position`: true if at least one part is filled. -/
def Trade.has_position (tr : Trade) : Bool :=
  !tr.parts.isEmpty

/-- Model of `Trade.close_trade`: close the entire position.  No-op when no parts are
filled.  P&L is `avg_entry - exit_price` (short-option convention), percent
P&L is `pnl / avg * 100` guarded by Python truthiness of `avg` (`0` when
`avg` is zero).  Every engine fill carries weight 33.33 or 33.34, so
`get_avg_entry_price` is defined whenever parts exist; `getD 0` mirrors this. -/
def Trade.close_trade (tr : Trade) (exit_time : ℕ) (exit_price : ℚ)
    (exit_reason : ExitReason) : Trade :=
  if tr.parts = [] then tr
  else
    let avg := tr.get_avg_entry_price.getD 0
    { tr with
      exit_time := some exit_time
      exit_price := some exit_price
      exit_reason := some exit_reason
      status := TStatus.CLOSED
      total_pnl := avg - exit_price
      total_pnl_pct := if avg = 0 then 0 else ((avg - exit_price) / avg) * 100 }

/-- Modelled from the spec: the per-instrument lot-size table.  The source
reads `config.LOT_SIZE.get(self.instrument, 1)` but `LOT_SIZE` itself is
absent from `config.py`, so the mapping is kept abstract; `.get(k, 1)`
becomes `Option.getD 1`. -/
def lotSizeGet (lot_size : String → Option ℚ) (instrument : String) : ℚ :=
  (lot_size instrument).getD 1

/-- Model of `Trade.get_money_pnl`: money P&L is option-price P&L times the
instrument's lot size. -/
def Trade.get_money_pnl (tr : Trade) (lot_size : String → Option ℚ) : ℚ :=
  tr.total_pnl * lotSizeGet lot_size tr.instrument

/-- Model of `BacktestEngine._get_contract_candle`: first row of the minute's data
matching the trade's exact contract key, `None` when absent. -/
def get_contract_candle (tr : Trade) (minute_data : List Row) : Option Row :=
  (minute_data.filter (fun r => decide (r.key = tr.contract))).head?

/-- The repeated pandas mask of `_check_exit` / `_eod_close_trade`: the
current day's rows for the trade's exact contract at or before the
configured exit time (row order is the day's chronological order). -/
def eodCandidates (cfg : Config) (tr : Trade) (day_data : List Row) : List Row :=
  day_data.filter (fun r =>
    decide (r.key = tr.contract) && decide (r.time_only ≤ cfg.exit_time))

/-- Step 1 of `_check_staggered_entry`: fill part 1 at `entry_level_1` with
weight 33.33 when unfilled and the candle's high reaches the level. -/
def entryStep1 (tr : Trade) (candle : Row) (t : ℕ) : Trade :=
  if tr.part1_filled = false ∧ tr.entry_level_1 ≤ candle.high then
    tr.add_entry 1 t tr.entry_level_1 (3333/100)
  else tr

/-- Step 2 of `_check_staggered_entry`: fill part 2 at `entry_level_2` only
after part 1 (evaluated on the already-updated trade within the minute). -/
def entryStep2 (tr : Trade) (candle : Row) (t : ℕ) : Trade :=
  if tr.part1_filled = true ∧ tr.part2_filled = false ∧
      tr.entry_level_2 ≤ candle.high then
    tr.add_entry 2 t tr.entry_level_2 (3333/100)
  else tr

/-- Step 3 of `_check_staggered_entry`: fill part 3 at `entry_level_3` with
weight 33.34 only after part 2. -/
def entryStep3 (tr : Trade) (candle : Row) (t : ℕ) : Trade :=
  if tr.part2_filled = true ∧ tr.part3_filled = false ∧
      tr.entry_level_3 ≤ candle.high then
    tr.add_entry 3 t tr.entry_level_3 (3334/100)
  else tr

/-- Model of `BacktestEngine._check_staggered_entry`: look up the contract's candle
for this minute (no-op when missing) and run the three level checks in
sequence against the same candle's high.  The Python logging messages are
dropped; entry levels are immutable so reading them from `tr` is exact. -/
def check_staggered_entry (tr : Trade) (minute_data : List Row) (t : ℕ) : Trade :=
  match get_contract_candle tr minute_data with
  | none => tr
  | some candle => entryStep3 (entryStep2 (entryStep1 tr candle t) candle t) candle t

/-- Model of `BacktestEngine._check_exit`: SL/TP/EOD exit check.  Returns
`(closed, trade)`; the Python method mutates the trade in place and appends
it to `self.trades` when closing — the caller of this model does the append.
Missing candle: no-op unless at exit time, in which case close at the most
recent available close at or before the exit time, else flat at the average
entry price. -/
def check_exit (cfg : Config) (tr : Trade) (minute_data day_data : List Row)
    (t : ℕ) (is_exit_time : Bool) : Bool × Trade :=
  if tr.has_position = false then (false, tr)
  else
    match get_contract_candle tr minute_data with
    | none =>
      if is_exit_time then
        match (eodCandidates cfg tr day_data).getLast? with
        | some lc => (true, tr.close_trade t lc.close ExitReason.EOD)
        | none =>
          (true, tr.close_trade t (tr.get_avg_entry_price.getD 0) ExitReason.EOD)
      else (false, tr)
    | some candle =>
      match tr.get_avg_entry_price with
      | none => (false, tr)
      | some avg_entry =>
        let sl_price := avg_entry * (1 + cfg.stop_loss_pct / 100)
        let tp_price := avg_entry * (1 - cfg.target_pct / 100)
        if sl_price ≤ candle.high then
          (true, tr.close_trade t sl_price ExitReason.STOP_LOSS)
        else if candle.low ≤ tp_price then
          (true, tr.close_trade t tp_price ExitReason.TARGET)
        else if is_exit_time then
          (true, tr.close_trade t candle.close ExitReason.EOD)
        else (false, tr)

/-- Model of `BacktestEngine._eod_close_trade`: day-boundary safety net.  A trade with
at least one filled part is closed (`EOD`) at the most recent available close
at or before the exit time, else flat at the average entry price, and is
handed to the completed-trade list (`some`); a trade with no parts is
discarded (`none`). -/
def eod_close_trade (cfg : Config) (tr : Trade) (day_data : List Row) : Option Trade :=
  if tr.has_position = true then
    match (eodCandidates cfg tr day_data).getLast? with
    | some last_row => some (tr.close_trade last_row.time_only last_row.close ExitReason.EOD)
    | none =>
      some (tr.close_trade cfg.exit_time (tr.get_avg_entry_price.getD 0) ExitReason.EOD)
  else none

/-- One minute of the replay: its minute-of-day time and its data rows. -/
structure Minute where
  time : ℕ
  rows : List Row
deriving DecidableEq, Repr

/-- All rows of one trading day, in chronological order (the engine's
`day_data`, from which each `minute_data` slice is taken). -/
def dayRows (day : List Minute) : List Row :=
  day.foldr (fun m acc => m.rows ++ acc) []

/-- The mutable state of `run_backtest`: the CE and PE tracks (each holding
at most one open trade by construction) and the completed-trade list. -/
structure EngineState where
  active_ce : Option Trade
  active_pe : Option Trade
  trades : List Trade
deriving DecidableEq, Repr

/-- The signal scan of `run_backtest` (lines 544–582): for each ATM row with
both RSI values defined, a crossover (`rsi_prev ≤ 70 < rsi`, threshold
hardcoded to 70 in the engine's `__init__`) creates a new `Trade` on the CE
track when `active_ce is None`, else on the PE track when `active_pe is
None`; an occupied track ignores the crossover. -/
def check_signals (cfg : Config) (inst : String) (t : ℕ) :
    List Row → Option Trade → Option Trade → Option Trade × Option Trade
  | [], active_ce, active_pe => (active_ce, active_pe)
  | row :: rest, active_ce, active_pe =>
    match row.rsi, row.rsi_prev with
    | some rsi, some rsi_prev =>
      if rsi_prev ≤ 70 ∧ 70 < rsi then
        if row.key.option_type = "CE" ∧ active_ce = none then
          check_signals cfg inst t rest
            (some (mkTrade cfg t row.close "CE" row.key.strike
              row.key.expiry_type row.key.expiry_code inst)) active_pe
        else if row.key.option_type = "PE" ∧ active_pe = none then
          check_signals cfg inst t rest active_ce
            (some (mkTrade cfg t row.close "PE" row.key.strike
              row.key.expiry_type row.key.expiry_code inst))
        else check_signals cfg inst t rest active_ce active_pe
      else check_signals cfg inst t rest active_ce active_pe
    | _, _ => check_signals cfg inst t rest active_ce active_pe

/-- One minute of the per-day loop of `run_backtest` (caller has already
filtered to the trading window): signal scan and entry checks outside the
exit-time minute, exit checks always; a close appends the trade and clears
its track. -/
def process_minute (cfg : Config) (inst : String) (st : EngineState)
    (day_data : List Row) (m : Minute) : EngineState :=
  let is_exit_time : Bool := decide (cfg.exit_time ≤ m.time)
  let minute_data := m.rows
  let atm_data := minute_data.filter (fun r => decide (r.moneyness = "ATM"))
  let sig :=
    if is_exit_time then (st.active_ce, st.active_pe)
    else check_signals cfg inst m.time atm_data st.active_ce st.active_pe
  let ce1 :=
    if is_exit_time then sig.1
    else
      match sig.1 with
      | some tr =>
        if tr.status = TStatus.WAITING_ENTRY ∨ tr.status = TStatus.PARTIAL_POSITION
        then some (check_staggered_entry tr minute_data m.time)
        else some tr
      | none => none
  let pe1 :=
    if is_exit_time then sig.2
    else
      match sig.2 with
      | some tr =>
        if tr.status = TStatus.WAITING_ENTRY ∨ tr.status = TStatus.PARTIAL_POSITION
        then some (check_staggered_entry tr minute_data m.time)
        else some tr
      | none => none
  let exitCE :=
    match ce1 with
    | some tr =>
      let r := check_exit cfg tr minute_data day_data m.time is_exit_time
      if r.1 then (st.trades ++ [r.2], (none : Option Trade))
      else (st.trades, some r.2)
    | none => (st.trades, none)
  let exitPE :=
    match pe1 with
    | some tr =>
      let r := check_exit cfg tr minute_data day_data m.time is_exit_time
      if r.1 then (exitCE.1 ++ [r.2], (none : Option Trade))
      else (exitCE.1, some r.2)
    | none => (exitCE.1, none)
  { active_ce := exitCE.2, active_pe := exitPE.2, trades := exitPE.1 }

/-- The day-boundary block of `run_backtest` (lines 619–627): force-close any
trade still on a track via `_eod_close_trade` (which discards zero-part
trades) and reset both tracks to empty. -/
def eodStep (cfg : Config) (st : EngineState) (day_data : List Row) : EngineState :=
  let st1 :=
    match st.active_ce with
    | some tr =>
      { st with trades := st.trades ++ (eod_close_trade cfg tr day_data).toList
                active_ce := none }
    | none => st
  match st1.active_pe with
  | some tr =>
    { st1 with trades := st1.trades ++ (eod_close_trade cfg tr day_data).toList
               active_pe := none }
  | none => st1

/-- One trading day of `run_backtest`: iterate the day's minutes restricted
to the trading window (skip before `entry_time`, skip strictly after
`exit_time`), then run the day-boundary block. -/
def process_day (cfg : Config) (inst : String) (st : EngineState)
    (day : List Minute) : EngineState :=
  let day_data := dayRows day
  let minutes := day.filter (fun m =>
    decide (cfg.entry_time ≤ m.time) && decide (m.time ≤ cfg.exit_time))
  eodStep cfg (minutes.foldl (fun s m => process_minute cfg inst s day_data m) st) day_data

/-- Model of `delta.where(delta > 0, 0)` applied to one cell: positive differences
kept, everything else (including the NaN at the first row, whose comparison
is False) replaced by 0. -/
def gainOf (x : ℚ) : ℚ := if 0 < x then x else 0

/-- Model of `(-delta.where(delta < 0, 0))` applied to one cell: magnitude of negative
differences, else 0 (NaN cell likewise becomes 0). -/
def lossOf (x : ℚ) : ℚ := if x < 0 then -x else 0

/-- Successive price differences `p[i] - p[i-1]` (the defined tail of
`prices.diff()` / `np.diff`). -/
def diffsOf (prices : List ℚ) : List ℚ :=
  List.zipWith (fun a b => b - a) prices prices.tail

/-- Model of `prices.diff()`: a leading NaN (`none`) followed by the successive
differences. -/
def deltaList (prices : List ℚ) : List (Option ℚ) :=
  match prices with
  | [] => []
  | _ :: _ => none :: (diffsOf prices).map some

/-- One cell of `delta.where(delta > 0, 0)` including the NaN case. -/
def whereGain (d : Option ℚ) : ℚ :=
  match d with
  | some x => gainOf x
  | none => 0

/-- One cell of `-delta.where(delta < 0, 0)` including the NaN case. -/
def whereLoss (d : Option ℚ) : ℚ :=
  match d with
  | some x => lossOf x
  | none => 0

/-- The gains series of `RSICalculator.calculate_rsi`. -/
def gainSeries (prices : List ℚ) : List ℚ := (deltaList prices).map whereGain

/-- The losses series of `RSICalculator.calculate_rsi`. -/
def lossSeries (prices : List ℚ) : List ℚ := (deltaList prices).map whereLoss

/-- Model of `Series.rolling(window=period).mean()` on a NaN-free series: defined
(`some`) once the window is full (position `i` with `period ≤ i+1`), with
value the arithmetic mean of the trailing `period` entries. -/
def rollingMean (period : ℕ) (xs : List ℚ) : List (Option ℚ) :=
  (List.range xs.length).map (fun i =>
    if period ≤ i + 1 then
      some (((xs.drop (i + 1 - period)).take period).sum / period)
    else none)

/-- Model of `rs = gain / loss; rsi = 100 - 100/(1+rs)` under IEEE-754 semantics on
exact inputs: `loss = 0, gain ≠ 0` gives `rs = ±inf`, which collapses to
`rsi = 100`; `loss = 0, gain = 0` gives `rs = NaN` and the RSI cell is NaN
(`none`); otherwise the arithmetic is exact. -/
def rsiCombine (g l : ℚ) : Option ℚ :=
  if l = 0 then (if g = 0 then none else some 100)
  else some (100 - 100 / (1 + g / l))

/-- Model of `RSICalculator.calculate_rsi` (`backtest_engine.py`): the pandas pipeline
`diff` → `where` → `rolling(period).mean` → `100 - 100/(1+gain/loss)`
cellwise; `none` models a NaN cell. -/
def calculate_rsi (prices : List ℚ) (period : ℕ) : List (Option ℚ) :=
  List.zipWith (fun go lo =>
      match go, lo with
      | some g, some l => rsiCombine g l
      | _, _ => none)
    (rollingMean period (gainSeries prices))
    (rollingMean period (lossSeries prices))

/-- Model of `RSIOptionsStrategy.calculate_rsi` (`rsi_options_strategy.py`): the live
numpy variant.  `None` when fewer than `period + 1` prices; otherwise simple
means of the last `period` gains/losses with an explicit `avg_loss == 0 →
100` branch (also covering `avg_gain == 0`). -/
def calculate_rsi_live (prices : List ℚ) (period : ℕ) : Option ℚ :=
  if prices.length < period + 1 then none
  else
    let deltas := diffsOf prices
    let gains := deltas.map gainOf
    let losses := deltas.map lossOf
    let avg_gain := (gains.drop (gains.length - period)).sum / period
    let avg_loss := (losses.drop (losses.length - period)).sum / period
    if avg_loss = 0 then some 100
    else some (100 - 100 / (1 + avg_gain / avg_loss))

/-- The `position_state` dictionary of `RSIOptionsStrategy`: one global slot
shared by all monitored instruments and both option classes. -/
structure PositionState where
  instrument : Option String
  option_type : Option String
  base_price : Option ℚ
  entry_prices : List ℚ
  quantities : List ℚ
  part1_taken : Bool
  part2_taken : Bool
  part3_taken : Bool
  cycle_active : Bool
deriving DecidableEq, Repr

/-- The initial/reset `position_state` (`__init__` / `reset_position`). -/
def emptyPositionState : PositionState :=
  { instrument := none
    option_type := none
    base_price := none
    entry_prices := []
    quantities := []
    part1_taken := false
    part2_taken := false
    part3_taken := false
    cycle_active := false }

/-- Model of `RSIOptionsStrategy.generate_signal`: when a cycle is already active the
signal is ignored (state unchanged, only a log line); otherwise the single
global slot is initialized for this instrument and option class.  The `rsi`
argument is only logged; the Python `start_time` stamp (wall clock) is
dropped. -/
def generate_signal (st : PositionState) (instrument option_type : String)
    (current_price : ℚ) (rsi : ℚ) : PositionState :=
  if st.cycle_active = true then st
  else
    { instrument := some instrument
      option_type := some option_type
      base_price := some current_price
      entry_prices := []
      quantities := []
      part1_taken := false
      part2_taken := false
      part3_taken := false
      cycle_active := true }

/-- Contract key used by the concrete test fixtures. -/
def niftyKey : ContractKey :=
  { strike := 22000, option_type := "CE", expiry_type := "WEEK", expiry_code := 1 }

/-- A fresh trade as created by a signal at close 100 (levels 105/110/115). -/
def trWaiting : Trade := mkTrade defaultConfig 600 100 "CE" 22000 "WEEK" 1 "NIFTY"

/-- A trade with one part filled at price 100 (average entry price 100). -/
def trFilled : Trade := trWaiting.add_entry 1 601 100 (3333/100)

/-- A candle whose high breaches the stop-loss level 120 and whose low
breaches the target level 90 for an average entry of 100. -/
def rowHit : Row :=
  { key := niftyKey, moneyness := "ATM", time_only := 700, high := 125, low := 80
    close := 110, rsi := none, rsi_prev := none }

/-- An ATM row carrying an oscillator crossover (69 → 71). -/
def rowCross : Row :=
  { key := niftyKey, moneyness := "ATM", time_only := 650, high := 101, low := 99
    close := 100, rsi := some 71, rsi_prev := some 69 }

/-- A live-strategy state in the middle of an active position cycle. -/
def activeState : PositionState :=
  { instrument := some "NIFTY", option_type := some "call", base_price := some 100
    entry_prices := [105], quantities := [3333/100], part1_taken := true
    part2_taken := false, part3_taken := false, cycle_active := true }

/-- A lot-size table fixture (NIFTY lot 75). -/
def lotNifty : String → Option ℚ :=
  fun s => if s = "NIFTY" then some 75 else none

theorem avg_spec (tr : Trade) (a : ℚ) (h : tr.get_avg_entry_price = some a) :
    tr.parts ≠ [] ∧ 0 < (tr.parts.map (fun p => p.size_pct)).sum ∧
      a = (tr.parts.map (fun p => p.entry_price * p.size_pct)).sum /
          (tr.parts.map (fun p => p.size_pct)).sum := by
  by_cases hp : tr.parts = []
  · simp [Trade.get_avg_entry_price, hp] at h
  · by_cases hw : 0 < (tr.parts.map (fun p => p.size_pct)).sum
    · refine ⟨hp, hw, ?_⟩
      simp only [Trade.get_avg_entry_price, hp, if_false, if_pos hw,
        Option.some.injEq] at h
      · exact h.symm
    · simp [Trade.get_avg_entry_price, hp, hw] at h

theorem close_trade_spec (tr : Trade) (t : ℕ) (x : ℚ) (r : ExitReason)
    (hp : tr.parts ≠ []) :
    (tr.close_trade t x r).exit_reason = some r ∧
    (tr.close_trade t x r).exit_price = some x ∧
    (tr.close_trade t x r).status = TStatus.CLOSED ∧
    (tr.close_trade t x r).total_pnl = tr.get_avg_entry_price.getD 0 - x ∧
    (tr.close_trade t x r).instrument = tr.instrument := by
  simp [Trade.close_trade, hp]

/-- Claim C9: for a trade with a defined average entry price `a`, closing at
exit price `x` realizes P&L `a - x` (short-option convention), percent P&L
`(a - x)/a * 100`, and money P&L `(a - x) * lot_size[instrument]`; the
average is the weight-weighted mean of the filled parts' prices and is
undefined when no parts are filled. -/
theorem c9_pnl (tr : Trade) (t : ℕ) (x : ℚ) (reason : ExitReason)
    (lot_size : String → Option ℚ) (a : ℚ) (tr0 : Trade)
    (ha : tr.get_avg_entry_price = some a) (h0 : tr0.parts = []) :
    a = (tr.parts.map (fun p => p.entry_price * p.size_pct)).sum /
        (tr.parts.map (fun p => p.size_pct)).sum ∧
    (tr.close_trade t x reason).total_pnl = a - x ∧
    (tr.close_trade t x reason).total_pnl_pct = ((a - x) / a) * 100 ∧
    (tr.close_trade t x reason).get_money_pnl lot_size =
      (a - x) * lotSizeGet lot_size tr.instrument ∧
    tr0.get_avg_entry_price = none := by
  obtain ⟨hp, -, hval⟩ := avg_spec tr a ha
  refine ⟨hval, ?_, ?_, ?_, ?_⟩
  · simp [Trade.close_trade, hp, ha]
  · by_cases haz : a = 0
    · simp [Trade.close_trade, hp, ha, haz]
    · simp [Trade.close_trade, hp, ha, haz]
  · simp [Trade.get_money_pnl, Trade.close_trade, hp, ha]
  · simp [Trade.get_avg_entry_price, h0]

/-- Claim C9 witness: closing the one-part fixture (average 100) at 90. -/
theorem c9_pnl_witness :
    trFilled.get_avg_entry_price = some 100 ∧
    (trFilled.close_trade 700 90 ExitReason.TARGET).total_pnl = 100 - 90 :=
  ⟨by norm_num [trFilled, trWaiting, mkTrade, Trade.add_entry, Trade.get_avg_entry_price],
    (c9_pnl trFilled 700 90 ExitReason.TARGET lotNifty 100 trWaiting
      (by norm_num [trFilled, trWaiting, mkTrade, Trade.add_entry,
        Trade.get_avg_entry_price]) rfl).2.1⟩

/-- Claim C10: the live strategy keeps a single global position slot: while a
cycle is active, `generate_signal` ignores every crossover on any instrument
and either option class (state unchanged, no new position); a new cycle is
initialized only from an inactive state. -/
theorem c10_single_cycle (st : PositionState) (instrument option_type : String)
    (price rsi : ℚ) :
    (st.cycle_active = true →
      generate_signal st instrument option_type price rsi = st) ∧
    (st.cycle_active = false →
      (generate_signal st instrument option_type price rsi).cycle_active = true ∧
      (generate_signal st instrument option_type price rsi).instrument = some instrument ∧
      (generate_signal st instrument option_type price rsi).option_type = some option_type ∧
      (generate_signal st instrument option_type price rsi).base_price = some price) := by
  constructor
  · intro h
    simp [generate_signal, h]
  · intro h
    simp [generate_signal, h]

/-- Claim C10 witness: a crossover on a different instrument and class is
ignored while the global cycle is active. -/
theorem c10_single_cycle_witness :
    activeState.cycle_active = true ∧
    generate_signal activeState "SENSEX" "put" 55 71 = activeState :=
  ⟨rfl, (c10_single_cycle activeState "SENSEX" "put" 55 71).1 rfl⟩

/-- Claim C8 counterexample: with the default (positive, increasing) offsets
5/10/15, a trade anchored at base price 0 has `level1 = level2 = level3 = 0`,
so the levels are not strictly increasing. -/
theorem c8_counterexample :
    (0 < defaultConfig.entry_level_1_pct ∧
      defaultConfig.entry_level_1_pct < defaultConfig.entry_level_2_pct ∧
      defaultConfig.entry_level_2_pct < defaultConfig.entry_level_3_pct) ∧
    ¬ ((mkTrade defaultConfig 558 0 "CE" 22000 "WEEK" 1 "NIFTY").entry_level_1 <
        (mkTrade defaultConfig 558 0 "CE" 22000 "WEEK" 1 "NIFTY").entry_level_2) := by
  constructor
  · norm_num [defaultConfig]
  · norm_num [mkTrade, defaultConfig]

/-- Claim C8 (amended): for every trade constructed from a signal whose base
price is positive, positive and increasing entry offsets give strictly
increasing entry levels. -/
theorem c8_levels_increasing (cfg : Config) (signal_time : ℕ) (base_price : ℚ)
    (ot : String) (strike : ℚ) (et : String) (ec : ℕ) (inst : String)
    (h12 : cfg.entry_level_1_pct < cfg.entry_level_2_pct)
    (h23 : cfg.entry_level_2_pct < cfg.entry_level_3_pct)
    (hb : 0 < base_price) :
    (mkTrade cfg signal_time base_price ot strike et ec inst).entry_level_1 <
      (mkTrade cfg signal_time base_price ot strike et ec inst).entry_level_2 ∧
    (mkTrade cfg signal_time base_price ot strike et ec inst).entry_level_2 <
      (mkTrade cfg signal_time base_price ot strike et ec inst).entry_level_3 := by
  constructor
  · simp only [mkTrade]
    exact mul_lt_mul_of_pos_left (by linarith) hb
  · simp only [mkTrade]
    exact mul_lt_mul_of_pos_left (by linarith) hb

/-- Claim C8 witness: default offsets, base price 100. -/
theorem c8_levels_increasing_witness :
    (defaultConfig.entry_level_1_pct < defaultConfig.entry_level_2_pct ∧
      defaultConfig.entry_level_2_pct < defaultConfig.entry_level_3_pct ∧
      (0:ℚ) < 100) ∧
    ((mkTrade defaultConfig 600 100 "CE" 22000 "WEEK" 1 "NIFTY").entry_level_1 <
      (mkTrade defaultConfig 600 100 "CE" 22000 "WEEK" 1 "NIFTY").entry_level_2 ∧
    (mkTrade defaultConfig 600 100 "CE" 22000 "WEEK" 1 "NIFTY").entry_level_2 <
      (mkTrade defaultConfig 600 100 "CE" 22000 "WEEK" 1 "NIFTY").entry_level_3) :=
  ⟨by norm_num [defaultConfig],
    c8_levels_increasing defaultConfig 600 100 "CE" 22000 "WEEK" 1 "NIFTY"
      (by norm_num [defaultConfig]) (by norm_num [defaultConfig]) (by norm_num)⟩

/-- Claim C1: for an open trade with a filled part and a candle present for
its exact contract, the exit check runs in fixed priority order on that
candle: `high ≥ sl_price = avg*(1+stopLossPct/100)` closes at exactly
`sl_price` with reason `STOP_LOSS` (regardless of the low, so a candle
breaching both levels closes as `STOP_LOSS`, never `TARGET`); else
`low ≤ tp_price = avg*(1-targetPct/100)` closes at exactly `tp_price` with
reason `TARGET`; else the end-of-day minute closes at the candle's close
with reason `EOD`; else the trade stays open, unchanged. -/
theorem c1_exit_priority (cfg : Config) (tr : Trade) (minute_data day_data : List Row)
    (t : ℕ) (is_exit_time : Bool) (c : Row) (a : ℚ)
    (hpos : tr.has_position = true)
    (hc : get_contract_candle tr minute_data = some c)
    (ha : tr.get_avg_entry_price = some a) :
    (a * (1 + cfg.stop_loss_pct / 100) ≤ c.high →
      check_exit cfg tr minute_data day_data t is_exit_time =
        (true, tr.close_trade t (a * (1 + cfg.stop_loss_pct / 100)) ExitReason.STOP_LOSS) ∧
      (tr.close_trade t (a * (1 + cfg.stop_loss_pct / 100)) ExitReason.STOP_LOSS).exit_reason =
        some ExitReason.STOP_LOSS) ∧
    (c.high < a * (1 + cfg.stop_loss_pct / 100) →
      c.low ≤ a * (1 - cfg.target_pct / 100) →
      check_exit cfg tr minute_data day_data t is_exit_time =
        (true, tr.close_trade t (a * (1 - cfg.target_pct / 100)) ExitReason.TARGET)) ∧
    (c.high < a * (1 + cfg.stop_loss_pct / 100) →
      a * (1 - cfg.target_pct / 100) < c.low →
      is_exit_time = true →
      check_exit cfg tr minute_data day_data t is_exit_time =
        (true, tr.close_trade t c.close ExitReason.EOD)) ∧
    (c.high < a * (1 + cfg.stop_loss_pct / 100) →
      a * (1 - cfg.target_pct / 100) < c.low →
      is_exit_time = false →
      check_exit cfg tr minute_data day_data t is_exit_time = (false, tr)) := by
  obtain ⟨hp, -, -⟩ := avg_spec tr a ha
  have hne : ¬ tr.has_position = false := by rw [hpos]; simp
  refine ⟨?_, ?_, ?_, ?_⟩
  · intro h
    refine ⟨?_, (close_trade_spec tr t _ _ hp).1⟩
    simp only [check_exit, hne, if_false, hc, ha, if_pos h]
    simp
  · intro h1 h2
    simp only [check_exit, hne, if_false, hc, ha, if_neg (not_le.mpr h1), if_pos h2]
    simp
  · intro h1 h2 h3
    simp only [check_exit, hne, if_false, hc, ha, if_neg (not_le.mpr h1),
      if_neg (not_le.mpr h2), h3, if_true]
    simp
  · intro h1 h2 h3
    simp only [check_exit, hne, if_false, hc, ha, if_neg (not_le.mpr h1),
      if_neg (not_le.mpr h2), h3, if_false]
    simp

/-- Claim C2: for an open trade with a filled part and no candle for its
exact contract this minute, the exit check does nothing outside the
end-of-day minute (no error, no mutation); at the end-of-day minute it
closes with reason `EOD` at the close of the most recent row for that
contract at or before the end-of-day time within the current day (the last
element of the chronologically ordered day slice), and if no such row exists
it closes flat at the average entry price with realized P&L exactly zero. -/
theorem c2_missing_candle (cfg : Config) (tr : Trade) (minute_data day_data : List Row)
    (t : ℕ) (a : ℚ)
    (hpos : tr.has_position = true)
    (hc : get_contract_candle tr minute_data = none)
    (ha : tr.get_avg_entry_price = some a) :
    (check_exit cfg tr minute_data day_data t false = (false, tr)) ∧
    (∀ lc, (eodCandidates cfg tr day_data).getLast? = some lc →
      check_exit cfg tr minute_data day_data t true =
        (true, tr.close_trade t lc.close ExitReason.EOD)) ∧
    ((eodCandidates cfg tr day_data).getLast? = none →
      check_exit cfg tr minute_data day_data t true =
        (true, tr.close_trade t a ExitReason.EOD) ∧
      (tr.close_trade t a ExitReason.EOD).total_pnl = 0 ∧
      (tr.close_trade t a ExitReason.EOD).exit_reason = some ExitReason.EOD) := by
  obtain ⟨hp, -, -⟩ := avg_spec tr a ha
  have hne : ¬ tr.has_position = false := by rw [hpos]; simp
  refine ⟨?_, ?_, ?_⟩
  · simp only [check_exit, hne, if_false, hc]
    simp
  · intro lc hlast
    simp only [check_exit, hne, if_false, hc, hlast]
    simp
  · intro hlast
    refine ⟨?_, ?_, (close_trade_spec tr t a ExitReason.EOD hp).1⟩
    · simp only [check_exit, hne, if_false, hc, hlast, ha]
      simp
    · rw [(close_trade_spec tr t a ExitReason.EOD hp).2.2.2.1, ha]
      simp

/-- Claim C1 witness: average entry 100, SL 20%%, TP 10%%; a candle with
high 125 and low 80 closes as `STOP_LOSS` at 120, never `TARGET`. -/
theorem c1_exit_priority_witness :
    trFilled.has_position = true ∧
    check_exit defaultConfig trFilled [rowHit] [] 700 false =
      (true, trFilled.close_trade 700 ((100:ℚ) * (1 + defaultConfig.stop_loss_pct / 100))
        ExitReason.STOP_LOSS) :=
  ⟨by norm_num [trFilled, trWaiting, mkTrade, Trade.add_entry, Trade.has_position],
    ((c1_exit_priority defaultConfig trFilled [rowHit] [] 700 false rowHit 100
      (by norm_num [trFilled, trWaiting, mkTrade, Trade.add_entry, Trade.has_position])
      (by norm_num [get_contract_candle, trFilled, trWaiting, mkTrade, Trade.add_entry,
        Trade.contract, rowHit, niftyKey])
      (by norm_num [trFilled, trWaiting, mkTrade, Trade.add_entry,
        Trade.get_avg_entry_price])).1
      (by norm_num [defaultConfig, rowHit])).1⟩

/-- Claim C2 witness: no candle at the end-of-day minute and no candle in
the whole day closes the trade flat at its average entry with zero P&L. -/
theorem c2_missing_candle_witness :
    trFilled.has_position = true ∧
    check_exit defaultConfig trFilled [] [] 915 true =
      (true, trFilled.close_trade 915 100 ExitReason.EOD) ∧
    (trFilled.close_trade 915 100 ExitReason.EOD).total_pnl = 0 := by
  have h := (c2_missing_candle defaultConfig trFilled [] [] 915 100
    (by norm_num [trFilled, trWaiting, mkTrade, Trade.add_entry, Trade.has_position])
    rfl
    (by norm_num [trFilled, trWaiting, mkTrade, Trade.add_entry,
      Trade.get_avg_entry_price])).2.2 rfl
  exact ⟨by norm_num [trFilled, trWaiting, mkTrade, Trade.add_entry, Trade.has_position],
    h.1, h.2.1⟩

theorem add_entry_fields (tr : Trade) (n t : ℕ) (p w : ℚ) :
    (tr.add_entry n t p w).part1_filled = (if n = 1 then true else tr.part1_filled) ∧
    (tr.add_entry n t p w).part2_filled = (if n = 2 then true else tr.part2_filled) ∧
    (tr.add_entry n t p w).part3_filled = (if n = 3 then true else tr.part3_filled) ∧
    (tr.add_entry n t p w).entry_level_1 = tr.entry_level_1 ∧
    (tr.add_entry n t p w).entry_level_2 = tr.entry_level_2 ∧
    (tr.add_entry n t p w).entry_level_3 = tr.entry_level_3 ∧
    (tr.add_entry n t p w).parts = tr.parts ++ [⟨n, t, p, w⟩] :=
  ⟨rfl, rfl, rfl, rfl, rfl, rfl, rfl⟩

theorem entryStep1_flags (tr : Trade) (c : Row) (t : ℕ) :
    (entryStep1 tr c t).part1_filled =
      (tr.part1_filled || decide (tr.entry_level_1 ≤ c.high)) ∧
    (entryStep1 tr c t).part2_filled = tr.part2_filled ∧
    (entryStep1 tr c t).part3_filled = tr.part3_filled ∧
    (entryStep1 tr c t).entry_level_2 = tr.entry_level_2 ∧
    (entryStep1 tr c t).entry_level_3 = tr.entry_level_3 := by
  unfold entryStep1
  split_ifs with h
  · obtain ⟨h1, h2⟩ := h
    simp [Trade.add_entry, h1, h2]
  · cases hb : tr.part1_filled with
    | true => simp [hb]
    | false =>
      have hle : ¬ tr.entry_level_1 ≤ c.high := fun hl => h ⟨hb, hl⟩
      simp [hb, hle]

theorem entryStep2_flags (tr : Trade) (c : Row) (t : ℕ) :
    (entryStep2 tr c t).part1_filled = tr.part1_filled ∧
    (entryStep2 tr c t).part2_filled =
      (tr.part2_filled || (tr.part1_filled && decide (tr.entry_level_2 ≤ c.high))) ∧
    (entryStep2 tr c t).part3_filled = tr.part3_filled ∧
    (entryStep2 tr c t).entry_level_3 = tr.entry_level_3 := by
  unfold entryStep2
  split_ifs with h
  · obtain ⟨h1, h2, h3⟩ := h
    simp [Trade.add_entry, h1, h2, h3]
  · cases hb : tr.part2_filled with
    | true => simp [hb]
    | false =>
      cases hb1 : tr.part1_filled with
      | false => simp [hb, hb1]
      | true =>
        have hle : ¬ tr.entry_level_2 ≤ c.high := fun hl => h ⟨hb1, hb, hl⟩
        simp [hb, hb1, hle]

theorem entryStep3_flags (tr : Trade) (c : Row) (t : ℕ) :
    (entryStep3 tr c t).part1_filled = tr.part1_filled ∧
    (entryStep3 tr c t).part2_filled = tr.part2_filled ∧
    (entryStep3 tr c t).part3_filled =
      (tr.part3_filled || (tr.part2_filled && decide (tr.entry_level_3 ≤ c.high))) := by
  unfold entryStep3
  split_ifs with h
  · obtain ⟨h1, h2, h3⟩ := h
    simp [Trade.add_entry, h1, h2, h3]
  · cases hb : tr.part3_filled with
    | true => simp [hb]
    | false =>
      cases hb2 : tr.part2_filled with
      | false => simp [hb, hb2]
      | true =>
        have hle : ¬ tr.entry_level_3 ≤ c.high := fun hl => h ⟨hb2, hb, hl⟩
        simp [hb, hb2, hle]

/-- Claim C3: with a candle present for the trade's exact contract, the
entry check fills level `k` exactly when every lower level is already filled
(in the same minute's already-updated state) and the candle's high reaches
level `k`; fill order is preserved (part 2 never without part 1, part 3
never without part 2); and a single candle whose high reaches level 3 on a
fresh `WAITING_ENTRY` trade fills all three parts that minute at the level
prices `level1, level2, level3` (not the candle's high). -/
theorem c3_staggered_entry (tr : Trade) (minute_data : List Row) (t : ℕ) (c : Row)
    (hc : get_contract_candle tr minute_data = some c) :
    ((check_staggered_entry tr minute_data t).part1_filled = true ↔
      (tr.part1_filled = true ∨ tr.entry_level_1 ≤ c.high)) ∧
    ((check_staggered_entry tr minute_data t).part2_filled = true ↔
      (tr.part2_filled = true ∨
        ((tr.part1_filled = true ∨ tr.entry_level_1 ≤ c.high) ∧
          tr.entry_level_2 ≤ c.high))) ∧
    ((check_staggered_entry tr minute_data t).part3_filled = true ↔
      (tr.part3_filled = true ∨
        ((tr.part2_filled = true ∨
            ((tr.part1_filled = true ∨ tr.entry_level_1 ≤ c.high) ∧
              tr.entry_level_2 ≤ c.high)) ∧
          tr.entry_level_3 ≤ c.high))) ∧
    ((tr.part2_filled = true → tr.part1_filled = true) →
      ((check_staggered_entry tr minute_data t).part2_filled = true →
        (check_staggered_entry tr minute_data t).part1_filled = true)) ∧
    ((tr.part3_filled = true → tr.part2_filled = true) →
      ((check_staggered_entry tr minute_data t).part3_filled = true →
        (check_staggered_entry tr minute_data t).part2_filled = true)) ∧
    (tr.parts = [] → tr.part1_filled = false → tr.part2_filled = false →
      tr.part3_filled = false → tr.entry_level_1 ≤ tr.entry_level_3 →
      tr.entry_level_2 ≤ tr.entry_level_3 → tr.entry_level_3 ≤ c.high →
      (check_staggered_entry tr minute_data t).parts.map PositionPart.entry_price =
        [tr.entry_level_1, tr.entry_level_2, tr.entry_level_3] ∧
      (check_staggered_entry tr minute_data t).status = TStatus.FULL_POSITION) := by
  have hrw : check_staggered_entry tr minute_data t =
      entryStep3 (entryStep2 (entryStep1 tr c t) c t) c t := by
    simp [check_staggered_entry, hc]
  obtain ⟨a1, a2, a3, a4, a5⟩ := entryStep1_flags tr c t
  obtain ⟨b1, b2, b3, b4⟩ := entryStep2_flags (entryStep1 tr c t) c t
  obtain ⟨d1, d2, d3⟩ := entryStep3_flags (entryStep2 (entryStep1 tr c t) c t) c t
  have H1 : (check_staggered_entry tr minute_data t).part1_filled =
      (tr.part1_filled || decide (tr.entry_level_1 ≤ c.high)) := by
    rw [hrw, d1, b1, a1]
  have H2 : (check_staggered_entry tr minute_data t).part2_filled =
      (tr.part2_filled || ((tr.part1_filled || decide (tr.entry_level_1 ≤ c.high)) &&
        decide (tr.entry_level_2 ≤ c.high))) := by
    rw [hrw, d2, b2, a2, a1, a4]
  have H3 : (check_staggered_entry tr minute_data t).part3_filled =
      ((tr.part3_filled ||
        ((tr.part2_filled || ((tr.part1_filled || decide (tr.entry_level_1 ≤ c.high)) &&
          decide (tr.entry_level_2 ≤ c.high))) && decide (tr.entry_level_3 ≤ c.high)))) := by
    rw [hrw, d3, b3, a3, b2, a2, a1, a4, b4, a5]
  refine ⟨?_, ?_, ?_, ?_, ?_, ?_⟩
  · rw [H1]; simp
  · rw [H2]; simp
  · rw [H3]; simp
  · intro hinv h2
    rw [H2] at h2
    rw [H1]
    simp only [Bool.or_eq_true, Bool.and_eq_true, decide_eq_true_eq] at h2 ⊢
    tauto
  · intro hinv h3
    rw [H3] at h3
    rw [H2]
    simp only [Bool.or_eq_true, Bool.and_eq_true, decide_eq_true_eq] at h3 ⊢
    tauto
  · intro hparts h1 h2 h3 hl13 hl23 hh
    have e1 : entryStep1 tr c t = tr.add_entry 1 t tr.entry_level_1 (3333/100) := by
      unfold entryStep1
      rw [if_pos ⟨h1, le_trans hl13 hh⟩]
    have e2 : entryStep2 (tr.add_entry 1 t tr.entry_level_1 (3333/100)) c t =
        (tr.add_entry 1 t tr.entry_level_1 (3333/100)).add_entry 2 t
          tr.entry_level_2 (3333/100) := by
      unfold entryStep2
      rw [if_pos ⟨by simp [Trade.add_entry], by simp [Trade.add_entry, h2],
        by simp [Trade.add_entry]; exact le_trans hl23 hh⟩]
      rfl
    have e3 : entryStep3 ((tr.add_entry 1 t tr.entry_level_1 (3333/100)).add_entry 2 t
        tr.entry_level_2 (3333/100)) c t =
        (((tr.add_entry 1 t tr.entry_level_1 (3333/100)).add_entry 2 t
          tr.entry_level_2 (3333/100)).add_entry 3 t tr.entry_level_3 (3334/100)) := by
      unfold entryStep3
      rw [if_pos ⟨by simp [Trade.add_entry], by simp [Trade.add_entry, h3],
        by simp [Trade.add_entry]; exact hh⟩]
      rfl
    rw [hrw, e1, e2, e3]
    constructor
    · simp [Trade.add_entry, hparts]
    · simp [Trade.add_entry, hparts]

/-- Claim C3 witness: a fresh trade (levels 105/110/115) and a candle with
high 125 fills all three parts at the level prices in one minute. -/
theorem c3_staggered_entry_witness :
    trWaiting.parts = [] ∧
    (check_staggered_entry trWaiting [rowHit] 700).parts.map PositionPart.entry_price =
      [trWaiting.entry_level_1, trWaiting.entry_level_2, trWaiting.entry_level_3] ∧
    (check_staggered_entry trWaiting [rowHit] 700).status = TStatus.FULL_POSITION := by
  have h := (c3_staggered_entry trWaiting [rowHit] 700 rowHit
    (by norm_num [get_contract_candle, trWaiting, mkTrade, Trade.contract,
      rowHit, niftyKey])).2.2.2.2.2
    rfl rfl rfl rfl
    (by norm_num [trWaiting, mkTrade, defaultConfig])
    (by norm_num [trWaiting, mkTrade, defaultConfig])
    (by norm_num [trWaiting, mkTrade, defaultConfig, rowHit])
  exact ⟨rfl, h.1, h.2⟩

theorem check_signals_ce_occupied (cfg : Config) (inst : String) (t : ℕ) :
    ∀ (rows : List Row) (pe : Option Trade) (tr : Trade),
      (check_signals cfg inst t rows (some tr) pe).1 = some tr := by
  intro rows
  induction rows with
  | nil => intro pe tr; rfl
  | cons row rest ih =>
    intro pe tr
    simp only [check_signals]
    split
    · split_ifs with hcross hce hpe
      · exact absurd hce.2 (by simp)
      · exact ih _ tr
      · exact ih pe tr
      · exact ih pe tr
    · exact ih pe tr

theorem check_signals_pe_occupied (cfg : Config) (inst : String) (t : ℕ) :
    ∀ (rows : List Row) (ce : Option Trade) (tr : Trade),
      (check_signals cfg inst t rows ce (some tr)).2 = some tr := by
  intro rows
  induction rows with
  | nil => intro ce tr; rfl
  | cons row rest ih =>
    intro ce tr
    simp only [check_signals]
    split
    · split_ifs with hcross hce hpe
      · exact ih _ tr
      · exact absurd hpe.2 (by simp)
      · exact ih ce tr
      · exact ih ce tr
    · exact ih ce tr

/-- Claim C4: each track is a single `Option Trade` slot, so it holds at most
one open trade by construction; the signal scan never modifies an occupied
track (a crossover is ignored, with no effect on the occupying trade), and a
track's content can change only when it was empty. -/
theorem c4_track_exclusive (cfg : Config) (inst : String) (t : ℕ) (rows : List Row)
    (ce pe : Option Trade) :
    ((check_signals cfg inst t rows ce pe).1 ≠ ce → ce = none) ∧
    ((check_signals cfg inst t rows ce pe).2 ≠ pe → pe = none) ∧
    (∀ tr, ce = some tr → (check_signals cfg inst t rows ce pe).1 = some tr) ∧
    (∀ tr, pe = some tr → (check_signals cfg inst t rows ce pe).2 = some tr) := by
  have hce : ∀ tr, ce = some tr → (check_signals cfg inst t rows ce pe).1 = some tr := by
    intro tr h
    rw [h]
    exact check_signals_ce_occupied cfg inst t rows pe tr
  have hpe : ∀ tr, pe = some tr → (check_signals cfg inst t rows ce pe).2 = some tr := by
    intro tr h
    rw [h]
    exact check_signals_pe_occupied cfg inst t rows ce tr
  refine ⟨?_, ?_, hce, hpe⟩
  · intro h
    cases hc : ce with
    | none => rfl
    | some tr => exact absurd ((hce tr hc).trans hc.symm) h
  · intro h
    cases hc : pe with
    | none => rfl
    | some tr => exact absurd ((hpe tr hc).trans hc.symm) h

/-- Claim C4 witness: a crossover row arriving while the CE track is occupied
leaves the occupying trade untouched. -/
theorem c4_track_exclusive_witness :
    (some trWaiting : Option Trade) = some trWaiting ∧
    (check_signals defaultConfig "NIFTY" 650 [rowCross] (some trWaiting) none).1 =
      some trWaiting :=
  ⟨rfl, (c4_track_exclusive defaultConfig "NIFTY" 650 [rowCross]
    (some trWaiting) none).2.2.1 trWaiting rfl⟩

theorem eodStep_tracks (cfg : Config) (st : EngineState) (dd : List Row) :
    (eodStep cfg st dd).active_ce = none ∧ (eodStep cfg st dd).active_pe = none := by
  unfold eodStep
  cases hce : st.active_ce <;> cases hpe : st.active_pe <;> simp [hce, hpe]

/-- Claim C5: after a day is processed both tracks are empty; any trade with
at least one filled part is force-closed by the day-boundary safety net with
reason `EOD` at the most recent available close at or before the exit time
(else flat at its average entry price) and appended to the completed-trade
output, while a trade with zero filled parts is discarded (`none`, nothing
appended). -/
theorem c5_day_boundary (cfg : Config) (inst : String) (st : EngineState)
    (day : List Minute) (tr : Trade) (s : EngineState) :
    (process_day cfg inst st day).active_ce = none ∧
    (process_day cfg inst st day).active_pe = none ∧
    ((eod_close_trade cfg tr (dayRows day)).isSome = tr.has_position) ∧
    (∀ tr', eod_close_trade cfg tr (dayRows day) = some tr' →
      tr'.exit_reason = some ExitReason.EOD ∧ tr'.status = TStatus.CLOSED ∧
      tr'.exit_price = some
        (((eodCandidates cfg tr (dayRows day)).getLast?.map Row.close).getD
          (tr.get_avg_entry_price.getD 0))) ∧
    (s.active_ce = some tr → s.active_pe = none →
      (eodStep cfg s (dayRows day)).trades =
        s.trades ++ (eod_close_trade cfg tr (dayRows day)).toList) := by
  refine ⟨?_, ?_, ?_, ?_, ?_⟩
  · simp only [process_day]
    exact (eodStep_tracks cfg _ _).1
  · simp only [process_day]
    exact (eodStep_tracks cfg _ _).2
  · unfold eod_close_trade
    cases hp : tr.has_position with
    | false => simp [hp]
    | true =>
      cases hlast : (eodCandidates cfg tr (dayRows day)).getLast? <;> simp [hp, hlast]
  · intro tr' h
    unfold eod_close_trade at h
    by_cases hp : tr.has_position = true
    · have hne : tr.parts ≠ [] := by
        intro hnil
        rw [Trade.has_position, hnil] at hp
        simp at hp
      rw [if_pos hp] at h
      cases hlast : (eodCandidates cfg tr (dayRows day)).getLast? with
      | none =>
        rw [hlast] at h
        have htr : tr' = tr.close_trade cfg.exit_time (tr.get_avg_entry_price.getD 0)
            ExitReason.EOD := by
          exact (Option.some.injEq _ _ ▸ h).symm
        obtain ⟨q1, q2, q3, -, -⟩ :=
          close_trade_spec tr cfg.exit_time (tr.get_avg_entry_price.getD 0)
            ExitReason.EOD hne
        rw [htr]
        exact ⟨q1, q3, by rw [q2]; simp [hlast]⟩
      | some lr =>
        rw [hlast] at h
        have htr : tr' = tr.close_trade lr.time_only lr.close ExitReason.EOD := by
          exact (Option.some.injEq _ _ ▸ h).symm
        obtain ⟨q1, q2, q3, -, -⟩ :=
          close_trade_spec tr lr.time_only lr.close ExitReason.EOD hne
        rw [htr]
        exact ⟨q1, q3, by rw [q2]; simp [hlast]⟩
    · rw [if_neg hp] at h
      simp at h
  · intro h1 h2
    unfold eodStep
    rw [h1]
    simp [h2]

theorem c5_day_boundary_witness :
    trFilled.has_position = true ∧
    (eod_close_trade defaultConfig trFilled (dayRows [])).isSome = trFilled.has_position ∧
    (eodStep defaultConfig ⟨some trFilled, none, []⟩ (dayRows [])).trades =
      [] ++ (eod_close_trade defaultConfig trFilled (dayRows [])).toList := by
  have h := c5_day_boundary defaultConfig "NIFTY" ⟨none, none, []⟩ [] trFilled
    ⟨some trFilled, none, []⟩
  exact ⟨by norm_num [trFilled, trWaiting, mkTrade, Trade.add_entry, Trade.has_position],
    h.2.2.1, h.2.2.2.2 rfl rfl⟩

theorem zipWith_map_eq {α β γ : Type} (F : β → β → γ) (f g : α → β) :
    ∀ l : List α, List.zipWith F (l.map f) (l.map g) = l.map (fun x => F (f x) (g x)) := by
  intro l
  induction l with
  | nil => rfl
  | cons a l ih => simp [ih]

theorem deltaList_length (prices : List ℚ) :
    (deltaList prices).length = prices.length := by
  cases prices with
  | nil => rfl
  | cons p tail =>
    simp [deltaList, diffsOf, List.length_zipWith]

theorem gainSeries_length (prices : List ℚ) :
    (gainSeries prices).length = prices.length := by
  simp [gainSeries, deltaList_length]

theorem lossSeries_length (prices : List ℚ) :
    (lossSeries prices).length = prices.length := by
  simp [lossSeries, deltaList_length]

theorem calculate_rsi_eq_map (prices : List ℚ) (period : ℕ) :
    calculate_rsi prices period =
      (List.range prices.length).map (fun i =>
        if period ≤ i + 1 then
          rsiCombine ((((gainSeries prices).drop (i + 1 - period)).take period).sum / period)
                     ((((lossSeries prices).drop (i + 1 - period)).take period).sum / period)
        else none) := by
  unfold calculate_rsi rollingMean
  rw [gainSeries_length, lossSeries_length, zipWith_map_eq]
  congr 1
  funext i
  by_cases h : period ≤ i + 1 <;> simp [h]

theorem range_map_getD {γ : Type} (n i : ℕ) (f : ℕ → Option γ) :
    (((List.range n).map f).getD i none) = if i < n then f i else none := by
  by_cases h : i < n
  · rw [List.getD_eq_getElem?_getD, List.getElem?_map, List.getElem?_range h]
    simp [h]
  · rw [List.getD_eq_getElem?_getD]
    rw [List.getElem?_eq_none (by simpa using le_of_not_lt h)]
    simp [h]

theorem gainSeries_window (prices : List ℚ) (period i : ℕ)
    (hper : period ≤ i) (hi : i < prices.length) :
    ((gainSeries prices).drop (i + 1 - period)).take period =
      (((diffsOf prices).drop (i - period)).take period).map gainOf := by
  cases prices with
  | nil => simp at hi
  | cons p tail =>
    have hcomp : gainSeries (p :: tail) = 0 :: (diffsOf (p :: tail)).map gainOf := by
      simp [gainSeries, deltaList, List.map_map, Function.comp, whereGain]
    have h2 : i + 1 - period = (i - period) + 1 := by omega
    rw [hcomp, h2, List.drop_succ_cons, ← List.map_drop, ← List.map_take]

theorem lossSeries_window (prices : List ℚ) (period i : ℕ)
    (hper : period ≤ i) (hi : i < prices.length) :
    ((lossSeries prices).drop (i + 1 - period)).take period =
      (((diffsOf prices).drop (i - period)).take period).map lossOf := by
  cases prices with
  | nil => simp at hi
  | cons p tail =>
    have hcomp : lossSeries (p :: tail) = 0 :: (diffsOf (p :: tail)).map lossOf := by
      simp [lossSeries, deltaList, List.map_map, Function.comp, whereLoss]
    have h2 : i + 1 - period = (i - period) + 1 := by omega
    rw [hcomp, h2, List.drop_succ_cons, ← List.map_drop, ← List.map_take]

theorem calculate_rsi_getD (prices : List ℚ) (period i : ℕ)
    (hper : period ≤ i) (hi : i < prices.length) :
    (calculate_rsi prices period).getD i none =
      rsiCombine
        (((((diffsOf prices).drop (i - period)).take period).map gainOf).sum / period)
        (((((diffsOf prices).drop (i - period)).take period).map lossOf).sum / period) := by
  rw [calculate_rsi_eq_map, range_map_getD, if_pos hi, if_pos (by omega),
    gainSeries_window prices period i hper hi, lossSeries_window prices period i hper hi]

/-- Claim C6 counterexample: with period `P = 2` and prices `[1,2,3]`, the
oscillator value at position 1 — one of the "first `P` positions" the claim
says are undefined — is defined and equals 100, because the pandas `where`
coerces the initial NaN difference to a zero gain/loss before the rolling
mean, so the window is already full at position `P - 1`. -/
theorem c6_counterexample :
    (calculate_rsi [1, 2, 3] 2).getD 1 none ≠ none ∧
    (calculate_rsi [1, 2, 3] 2).getD 1 none = some 100 := by
  have h : calculate_rsi [1, 2, 3] 2 = [none, some 100, some 100] := by
    norm_num [calculate_rsi, rollingMean, gainSeries, lossSeries, deltaList, diffsOf,
      whereGain, whereLoss, gainOf, lossOf, rsiCombine, List.range_succ]
  rw [h]
  exact ⟨by simp, rfl⟩

/-- Claim C6 (amended): at every position `i ≥ P` the oscillator value is
`rsiCombine` of the simple means, over the trailing window of the last `P`
successive price differences, of the positive differences (else 0) and of
the magnitudes of the negative differences (else 0); when the mean loss is
nonzero `rsiCombine` is exactly `100 - 100/(1 + meanGain/meanLoss)`.  Only
the first `P - 1` positions are undefined: position `P - 1` is already
computed, with the missing initial difference contributing a zero gain and a
zero loss to its window. -/
theorem c6_rsi_window (prices : List ℚ) (period i : ℕ) (g l : ℚ) :
    (i + 1 < period → (calculate_rsi prices period).getD i none = none) ∧
    (period ≤ i → i < prices.length →
      (calculate_rsi prices period).getD i none =
        rsiCombine
          (((((diffsOf prices).drop (i - period)).take period).map gainOf).sum / period)
          (((((diffsOf prices).drop (i - period)).take period).map lossOf).sum / period)) ∧
    (l ≠ 0 → rsiCombine g l = some (100 - 100 / (1 + g / l))) := by
  refine ⟨?_, ?_, ?_⟩
  · intro h
    rw [calculate_rsi_eq_map, range_map_getD]
    by_cases hi : i < prices.length
    · rw [if_pos hi, if_neg (by omega)]
    · rw [if_neg hi]
  · intro h1 h2
    exact calculate_rsi_getD prices period i h1 h2
  · intro hl
    unfold rsiCombine
    rw [if_neg hl]

/-- Claim C6 witness: prices `[1,2,4,3]`, period 2, position 2. -/
theorem c6_rsi_window_witness :
    ((2:ℕ) ≤ 2 ∧ (2:ℕ) < ([1, 2, 4, 3] : List ℚ).length ∧ ((1:ℚ)/2) ≠ 0) ∧
    (calculate_rsi [1, 2, 4, 3] 2).getD 2 none =
      rsiCombine
        (((((diffsOf [1, 2, 4, 3]).drop (2 - 2)).take 2).map gainOf).sum / 2)
        (((((diffsOf [1, 2, 4, 3]).drop (2 - 2)).take 2).map lossOf).sum / 2) ∧
    rsiCombine 1 (1/2) = some (100 - 100 / (1 + 1 / (1/2))) := by
  have h := c6_rsi_window [1, 2, 4, 3] 2 2 1 (1/2)
  exact ⟨⟨by norm_num, by norm_num, by norm_num⟩,
    h.2.1 (by norm_num) (by norm_num), h.2.2 (by norm_num)⟩

/-- Claim C7 counterexample: flat prices `[5,5,5]` with period 2 give a
window whose mean loss is exactly 0 (and mean gain 0) at position 2 ≥ P, but
the backtest oscillator value there is undefined (pandas `0/0` is NaN), not
100. -/
theorem c7_counterexample :
    ((((diffsOf [5, 5, 5]).drop (2 - 2)).take 2).map lossOf).sum / 2 = 0 ∧
    (calculate_rsi [5, 5, 5] 2).getD 2 none = none := by
  constructor
  · norm_num [diffsOf, lossOf]
  · have h : calculate_rsi [5, 5, 5] 2 = [none, none, none] := by
      norm_num [calculate_rsi, rollingMean, gainSeries, lossSeries, deltaList, diffsOf,
        whereGain, whereLoss, gainOf, lossOf, rsiCombine, List.range_succ]
    rw [h]
    rfl

/-- Claim C7 (amended): past the first positions, a window whose mean loss is
exactly 0 yields an oscillator value of exactly 100 in the backtest series
provided the mean gain is nonzero (an unbounded ratio collapsing to 100); in
the degenerate case where the mean gain is also 0 the backtest value is
undefined (NaN), while the live variant's explicit zero-loss branch returns
100 whenever the average loss is 0, including that degenerate case. -/
theorem c7_zero_loss (prices : List ℚ) (period i : ℕ) :
    (period ≤ i → i < prices.length →
      ((((diffsOf prices).drop (i - period)).take period).map lossOf).sum / period = 0 →
      ((((diffsOf prices).drop (i - period)).take period).map gainOf).sum / period ≠ 0 →
      (calculate_rsi prices period).getD i none = some 100) ∧
    (¬ prices.length < period + 1 →
      (((diffsOf prices).map lossOf).drop
        (((diffsOf prices).map lossOf).length - period)).sum / period = 0 →
      calculate_rsi_live prices period = some 100) := by
  constructor
  · intro h1 h2 hl hg
    rw [calculate_rsi_getD prices period i h1 h2]
    unfold rsiCombine
    rw [if_pos hl, if_neg hg]
  · intro h1 hl
    unfold calculate_rsi_live
    rw [if_neg h1]
    change (if (List.drop ((List.map lossOf (diffsOf prices)).length - period)
        (List.map lossOf (diffsOf prices))).sum / (period : ℚ) = 0 then (some 100 : Option ℚ)
      else some (100 - 100 / (1 +
        (List.drop ((List.map gainOf (diffsOf prices)).length - period)
          (List.map gainOf (diffsOf prices))).sum / (period : ℚ) /
        ((List.drop ((List.map lossOf (diffsOf prices)).length - period)
          (List.map lossOf (diffsOf prices))).sum / (period : ℚ))))) = some 100
    rw [if_pos hl]

/-- Claim C7 witness: strictly rising prices `[1,2,3,4]`, period 2. -/
theorem c7_zero_loss_witness :
    ((2:ℕ) ≤ 2 ∧ (2:ℕ) < ([1, 2, 3, 4] : List ℚ).length) ∧
    (calculate_rsi [1, 2, 3, 4] 2).getD 2 none = some 100 ∧
    calculate_rsi_live [1, 2, 3, 4] 2 = some 100 := by
  have h := c7_zero_loss [1, 2, 3, 4] 2 2
  refine ⟨⟨by norm_num, by norm_num⟩,
    h.1 (by norm_num) (by norm_num) ?_ ?_, h.2 (by norm_num) ?_⟩
  · norm_num [diffsOf, lossOf]
  · norm_num [diffsOf, gainOf]
  · norm_num [diffsOf, lossOf]
